import Mathlib

/-!
Shallow embedding of the heatmap pipeline of src/app.py (the block guarded by
the Plot Heatmap button, lines 99-195), together with theorems that settle the
frozen claims about it.

Modelling conventions:
* Text is modelled as lists of characters (type Chars below); a data file is
  its name plus the list of decoded lines (the code calls splitlines on the
  decoded bytes at line 114, so the line list is the natural input boundary).
* Machine floats are modelled as exact rationals.  The nonfinite values that
  np.log1p can produce (minus infinity at y = -1, NaN below) are modelled by
  the inductive type TVal; see its documentation for the encoding of finite
  transformed values.
* Per-file failures that the code catches (fewer than two columns, float
  conversion failure, the dead x/y length check) are modelled as skip results;
  exceptions the code does not catch (pandas read errors, scipy spline
  construction errors, the pandas column-insertion length error) are modelled
  as Except.error values, which abort the whole batch exactly as an uncaught
  Python exception aborts the script run.
* scipy.interpolate.make_interp_spline builds the interpolating B-spline: it
  raises unless x is strictly increasing and (for the default degree k = 3
  with not-a-knot boundary conditions) has at least 4 points, and the spline
  it returns takes the value y i at the data site x i.  Values away from the
  data sites are genuine B-spline extrapolations that no claim depends on;
  they are supplied by an explicit Oracle parameter so that every theorem is
  independent of them.
-/

set_option maxRecDepth 100000

namespace DebyeScherrer

/-- Text modelled as a list of characters. -/
abbrev Chars := List Char

/-- Digit test on a character, by code point. -/
def isDigitC (c : Char) : Bool := 48 ≤ c.toNat && c.toNat ≤ 57

/-- Whitespace for the read csv delimiter regex of one or more spaces or tabs
(app.py lines 120 and 122). -/
def isWS (c : Char) : Bool := c == ' ' || c == '\t'

/-- Accumulator for the numeric value of a digit run. -/
def digitsValAux : Chars → Nat → Nat
  | [], acc => acc
  | c :: t, acc => digitsValAux t (acc * 10 + (c.toNat - 48))

/-- Numeric value of an unsigned decimal token, with an optional fractional
part: the grammar digits, digits dot digits, digits dot, or dot digits.
This is the fragment of the Python float conversion used by the astype calls
at app.py lines 141-142 that the claims exercise; a token outside the grammar
is treated as unconvertible. -/
def parseUnsigned (cs : Chars) : Option ℚ :=
  let intPart := cs.takeWhile (fun c => !(c == '.'))
  let rest := cs.dropWhile (fun c => !(c == '.'))
  match rest with
  | [] =>
    if intPart ≠ [] ∧ intPart.all isDigitC then some ((digitsValAux intPart 0 : ℚ))
    else none
  | _ :: frac =>
    if (intPart ≠ [] ∨ frac ≠ []) ∧ intPart.all isDigitC ∧ frac.all isDigitC then
      some ((digitsValAux intPart 0 : ℚ) + (digitsValAux frac 0 : ℚ) / (10 ^ frac.length : ℚ))
    else none

/-- Signed decimal token, as accepted by the float conversion in the astype
calls of app.py lines 141-142. -/
def parseQ (cs : Chars) : Option ℚ :=
  match cs with
  | [] => none
  | c :: t =>
    if c == '-' then (parseUnsigned t).map (fun q => -q)
    else if c == '+' then parseUnsigned t
    else parseUnsigned cs

/-- Split a line into maximal runs of non-whitespace characters, mirroring the
one-or-more-whitespace delimiter passed to read csv (app.py lines 120, 122). -/
def tokenizeAux : Chars → Chars → List Chars
  | [], cur => if cur = [] then [] else [cur.reverse]
  | c :: t, cur =>
    if isWS c then (if cur = [] then tokenizeAux t [] else cur.reverse :: tokenizeAux t [])
    else tokenizeAux t (c :: cur)

/-- Tokenize one line. -/
def tokenize (l : Chars) : List Chars := tokenizeAux l []

/-- A line is a header or annotation line when it starts with the hash mark or
the single-quote character, code point 39 (app.py line 115). -/
def isHeaderLine (l : Chars) : Bool :=
  match l with
  | [] => false
  | c :: _ => c == '#' || c.toNat == 39

/-- A column key of the parsed table: a name from a header row, or a positional
index when no header row was recognised.  Matches the two read csv calls of
app.py lines 120 and 122, whose columns are either the header tokens or the
range index 0, 1, ... -/
inductive ColKey where
  | str (s : Chars)
  | idx (n : Nat)
deriving DecidableEq, Repr

/-- The parsed table of one data file: the ordered column keys and the rows of
raw cells (cells stay textual until the astype float conversion, whose failure
the code catches at app.py lines 140-145). -/
structure PDataFrame where
  cols : List ColKey
  rows : List (List Chars)
deriving DecidableEq, Repr

/-- Uncaught exceptions of the modelled pipeline; any of these aborts the whole
batch run, as the corresponding Python exception is raised outside every
try block of app.py. -/
inductive Fatal where
  /-- pandas read csv on ragged rows (the C engine error for a row with a
  field count different from the first row; rows with fewer fields are in
  reality padded with NaN, a case no claim exercises, modelled as the same
  abort). -/
  | raggedRows (file : Chars)
  /-- pandas read csv on an input with no data rows and no header. -/
  | emptyData (file : Chars)
  /-- numpy or scipy on an empty extracted column (the empty series minimum is
  NaN and the downstream arange and spline calls raise). -/
  | emptyColumn (file : Chars)
  /-- scipy make interp spline check finite failure: some y value is NaN or
  infinite. -/
  | splineNonFinite (file : Chars)
  /-- scipy make interp spline on x values that are not strictly increasing. -/
  | splineNotSorted (file : Chars)
  /-- scipy make interp spline with fewer than 4 points for the default cubic
  degree with not-a-knot boundary conditions (the boundary derivative count
  error). -/
  | splineTooFewPoints (file : Chars)
  /-- pandas column assignment with a value vector whose length differs from
  the current index length of the nonempty frame (app.py line 169). -/
  | insertLengthMismatch (label : Chars)
deriving DecidableEq, Repr

/-- Per-file diagnostics that the code reports and then continues past
(st.warning and st.error calls at app.py lines 126, 136, 144, 158). -/
inductive Diag where
  | notEnoughColumns (file : Chars)
  | floatConvFailed (cx cy : ColKey) (file : Chars)
  | lengthMismatch (file : Chars)
deriving DecidableEq, Repr

/-- One uploaded measurement file: its name and its decoded text lines. -/
structure DataFile where
  name : Chars
  lines : List Chars
deriving DecidableEq, Repr

/-- The structural parse of one file, following app.py lines 113-122: classify
lines as header or data lines; with exactly one header line, parse with that
line as the column-name row, otherwise parse the data lines positionally.
Blank lines are skipped as read csv does; an input with no data rows and no
header raises the pandas empty-data error, and ragged rows raise the parser
error, both uncaught. -/
def parseFrame (f : DataFile) : Except Fatal PDataFrame :=
  let headers := f.lines.filter (fun l => isHeaderLine l)
  let datas := f.lines.filter (fun l => !(isHeaderLine l))
  if headers.length = 1 then
    let hToks := tokenize (headers.getD 0 [])
    let rows := (datas.map tokenize).filter (fun r => r ≠ [])
    if rows.all (fun r => r.length = hToks.length) then
      .ok ⟨hToks.map .str, rows⟩
    else .error (.raggedRows f.name)
  else
    let rows := (datas.map tokenize).filter (fun r => r ≠ [])
    match rows with
    | [] => .error (.emptyData f.name)
    | r0 :: _ =>
      if rows.all (fun r => r.length = r0.length) then
        .ok ⟨(List.range r0.length).map .idx, rows⟩
      else .error (.raggedRows f.name)

/-- The value of one y cell after the optional log transform of app.py lines
148-152.  np.log1p maps y to the natural logarithm of 1 + y, which is finite
and strictly increasing for y above -1, minus infinity at y = -1 and NaN
below.  A finite transformed value log1p y is represented as fin y, by its
argument: since the map is strictly increasing, every comparison the code
performs on transformed values (the pandas max call, equality of stored
cells) is faithfully mirrored on the representatives, and no claim inspects
the transcendental magnitude itself.  In linear mode fin q simply represents
q. -/
inductive TVal where
  | fin (q : ℚ)
  | neginf
  | nan
deriving DecidableEq, Repr

/-- np.log1p on an exact rational input, in the representation documented at
TVal (app.py line 149). -/
def np_log1p (q : ℚ) : TVal :=
  if -1 < q then .fin q else if q = -1 then .neginf else .nan

/-- The largest finite entry of a transformed series, if any: this is the
pandas max call of app.py line 152, which skips NaN entries and returns NaN
when every entry is NaN. -/
def maxFinQ : List TVal → Option ℚ
  | [] => none
  | .fin q :: t => match maxFinQ t with
    | none => some q
    | some m => some (max q m)
  | _ :: t => maxFinQ t

/-- The log branch of app.py lines 148-152: apply np.log1p elementwise,
replace infinities by NaN, then fill NaN entries with the series maximum.
When every transformed entry is NaN the maximum itself is NaN and the fill
leaves the series unchanged. -/
def logRepair (ys : List ℚ) : List TVal :=
  let t1 := (ys.map np_log1p).map (fun v => if v = .neginf then .nan else v)
  match maxFinQ t1 with
  | some m => t1.map (fun v => if v = .nan then .fin m else v)
  | none => t1

/-- Color scale selector (app.py lines 71-72). -/
inductive Scale where
  | linear
  | log
deriving DecidableEq, Repr

/-- Sort method selector (app.py lines 74-75). -/
inductive SortMethod where
  | noSort
  | byFile
  | bySimilarity
deriving DecidableEq, Repr

/-- Apply the selected scale to the extracted y column (app.py lines 148-152);
the linear branch passes the values through. -/
def applyScale : Scale → List ℚ → List TVal
  | .linear, ys => ys.map .fin
  | .log, ys => logRepair ys

/-- Floor of a rational, computed with flooring integer division. -/
def ratFloor (q : ℚ) : ℤ := Int.fdiv q.num (q.den : ℤ)

/-- Ceiling of a rational. -/
def ratCeil (q : ℚ) : ℤ := -(ratFloor (-q))

/-- np.arange start stop step for a positive step: the values start + i * step
for i below the ceiling of (stop - start) / step (app.py lines 156 and 165). -/
def np_arange (start stop step : ℚ) : List ℚ :=
  (List.range (ratCeil ((stop - start) / step)).toNat).map (fun i => start + (i : ℚ) * step)

/-- Minimum of a list of rationals (pandas min over a nonempty column). -/
def listMin : List ℚ → ℚ
  | [] => 0
  | h :: t => t.foldl min h

/-- Maximum of a list of rationals (pandas max over a nonempty column). -/
def listMax : List ℚ → ℚ
  | [] => 0
  | h :: t => t.foldl max h

/-- Strictly increasing test on the x column, the negation of the
np.any of x shifted comparisons that make interp spline performs. -/
def strictlyInc : List ℚ → Bool
  | [] => true
  | [_] => true
  | a :: b :: t => a < b && strictlyInc (b :: t)

/-- Extract the finite payloads of a transformed series, failing on any NaN or
infinite entry (the check finite pass of make interp spline). -/
def allFinite : List TVal → Option (List ℚ)
  | [] => some []
  | .fin q :: t => (allFinite t).map (fun l => q :: l)
  | _ :: _ => none

/-- scipy.interpolate.make_interp_spline with the default degree 3 and
not-a-knot boundary conditions (app.py line 160), reduced to its fallible
checks: the y values must be finite, the x values strictly increasing, and at
least 4 data points are needed (with 3 or fewer the boundary derivative count
check fails).  On success it returns the finite y payloads, which together
with the x values determine the interpolating spline: its value at the data
site x i is y i, and values elsewhere are left to the Oracle parameter of
splineEval. -/
def make_interp_spline (fname : Chars) (xs : List ℚ) (ys : List TVal) :
    Except Fatal (List ℚ) :=
  match allFinite ys with
  | none => .error (.splineNonFinite fname)
  | some ysq =>
    if strictlyInc xs then
      if xs.length < 4 then .error (.splineTooFewPoints fname)
      else .ok ysq
    else .error (.splineNotSorted fname)

/-- The off-site values of the interpolating spline: a parameter of the whole
development, since no claim depends on them. -/
abbrev Oracle := List ℚ → List ℚ → ℚ → ℚ

/-- Evaluate the interpolating spline built from data sites xs and values ys
at the point t: at a data site this is the corresponding data value (the
defining property of an interpolating spline); elsewhere the oracle supplies
the extrapolated value. -/
def splineEval (o : Oracle) (xs ys : List ℚ) (t : ℚ) : ℚ :=
  match (xs.zip ys).find? (fun pr => pr.1 == t) with
  | some pr => pr.2
  | none => o xs ys t

/-- The oracle used to instantiate concrete runs; every concrete run in this
file evaluates the spline at data sites only, so the choice is irrelevant. -/
def zeroOracle : Oracle := fun _ _ _ => 0

/-- The scalar parameters and label data the excluded UI layer hands to the
pipeline: requested x and y column names (app.py lines 64-66), the x step
(line 69), the scale and sort selections (lines 72, 75), and the label table
already resolved into the labels mapping and the order list the loop of
lines 89-96 builds (the Label Resolver; its output is consumed read-only). -/
structure Params where
  col_x : Chars
  col_y : Chars
  x_step : ℚ
  scale : Scale
  sort_method : SortMethod
  labels : List (Chars × Chars)
  order : List Chars
deriving Repr

/-- Last-wins association lookup: Python dict insertion with later duplicate
keys overwriting earlier ones. -/
def lookupLast (assoc : List (Chars × Chars)) (k : Chars) : Option Chars :=
  (assoc.reverse.find? (fun kv => kv.1 == k)).map (fun kv => kv.2)

/-- os.path.splitext stem of a file name (app.py line 168): drop the suffix
from the last dot on, except that the leading run of dots never starts a
suffix. -/
def stemOf (name : Chars) : Chars :=
  let k := (name.takeWhile (fun c => c == '.')).length
  let idxs := (List.range name.length).filter
    (fun i => (name.getD i ' ' == '.') && decide (k ≤ i))
  match idxs.getLast? with
  | some i => name.take i
  | none => name

/-- The display label of a file: the labels mapping entry for its name if one
exists, the name stem otherwise (app.py line 168). -/
def labelOf (p : Params) (name : Chars) : Chars :=
  match lookupLast p.labels name with
  | some l => l
  | none => stemOf name

/-- Resolution of the x column (app.py lines 130-131): keep the current key
unless it is the empty name or absent from the columns of this file, in which
case fall back to the first column.  The current key starts as the requested
name and is overwritten in place by each resolution. -/
def resolveFirst (cur : ColKey) (cols : List ColKey) : ColKey :=
  if cur = .str [] ∨ cur ∉ cols then cols.getD 0 (.idx 0) else cur

/-- Resolution of the y column (app.py lines 132-133), falling back to the
second column.  It is only invoked after the shape check of line 125, so the
columns list has at least two entries and the Python branch that would set
the key to None (lines 133 and 135-137) is dead. -/
def resolveSecond (cur : ColKey) (cols : List ColKey) : ColKey :=
  if cur = .str [] ∨ cur ∉ cols then cols.getD 1 (.idx 0) else cur

/-- Index of a column key in the frame (first occurrence). -/
def colIndex (df : PDataFrame) (k : ColKey) : Nat := df.cols.findIdx (fun c => c == k)

/-- df at column k followed by astype float (app.py lines 141-142): extract
the cells of the column and convert each to a rational; a cell outside the
float grammar makes the whole conversion fail, the failure the except clause
of lines 143-145 catches. -/
def astypeFloat (df : PDataFrame) (k : ColKey) : Option (List ℚ) :=
  (df.rows.map (fun r => r.getD (colIndex df k) [])).mapM parseQ

/-- The decade tick positions derived from the first accepted series
(app.py line 165). -/
def ticksOf (xs : List ℚ) : List ℚ :=
  np_arange ((ratFloor (listMin xs / 10) : ℚ) * 10)
    ((ratCeil (listMax xs / 10) : ℚ) * 10 + 10) 10

/-- The grid the file is resampled on (app.py lines 155-156): x new runs from
the smallest multiple of the step at or above the series minimum up to the
series maximum plus one step, exclusive. -/
def gridOf (step : ℚ) (xs : List ℚ) : List ℚ :=
  np_arange ((ratCeil (listMin xs / step) : ℚ) * step) (listMax xs + step) step

/-- The accumulating matrix: the heatmap data frame of app.py line 101,
as the insertion-ordered list of label and column-vector pairs. -/
abbrev HeatmapData := List (Chars × List ℚ)

/-- Replace the value of an existing key, keeping its position. -/
def replaceCol : HeatmapData → Chars → List ℚ → HeatmapData
  | [], _, _ => []
  | (k, v) :: t, label, ynew =>
    if k = label then (k, ynew) :: t else (k, v) :: replaceCol t label ynew

/-- pandas column assignment heatmap data at label gets y new (app.py line
169): on the empty frame the assignment fixes the index length; on a
nonempty frame a vector of any other length raises the uncaught length
mismatch error; an existing label is overwritten in place, a new one is
appended. -/
def insertCol (m : HeatmapData) (label : Chars) (v : List ℚ) :
    Except Fatal HeatmapData :=
  match m with
  | [] => .ok [(label, v)]
  | (_, v0) :: _ =>
    if v.length ≠ v0.length then .error (.insertLengthMismatch label)
    else if label ∈ m.map Prod.fst then .ok (replaceCol m label v)
    else .ok (m ++ [(label, v)])

/-- The mutable state the loop of app.py lines 111-169 threads from file to
file: the two column keys (overwritten at lines 130-133), the once-set tick
positions (line 164) and the accumulating matrix (line 169). -/
structure CoreState where
  col_x : ColKey
  col_y : ColKey
  x_ticks : Option (List ℚ)
  matrix : HeatmapData
deriving Repr

/-- The state before the first file: the requested column names, no ticks, an
empty matrix (app.py lines 64-66, 101-102). -/
def initState (p : Params) : CoreState :=
  ⟨.str p.col_x, .str p.col_y, none, []⟩

/-- What one file contributed to the run: either a reported skip diagnostic,
or acceptance into the matrix together with the resolved column keys and the
grid the file was resampled on (the per-iteration values of col x, col y and
x new). -/
inductive FileResult where
  | skipped (d : Diag)
  | accepted (label : Chars) (cx cy : ColKey) (grid : List ℚ)
deriving DecidableEq, Repr

/-- The body of the loop of app.py lines 111-169 for one file.  In order:
structural parse (lines 113-122, uncaught read errors abort); the column
count check with its skip warning (125-127); column resolution writing the
resolved keys back into the shared state (130-133); the float conversion
with its caught error (140-145); the optional scale transform (148-152); the
grid x new for this file from its own x range (155-156); the dead x and y
length check (157-159); spline construction, whose errors are uncaught and
abort the batch (160); resampling onto the grid (161); the once-only tick
computation (164-165); label resolution and the matrix assignment, whose
length error is uncaught (168-169). -/
def processFile (p : Params) (o : Oracle) (st : CoreState) (f : DataFile) :
    Except Fatal (CoreState × FileResult) :=
  match parseFrame f with
  | .error e => .error e
  | .ok df =>
    if df.cols.length < 2 then .ok (st, .skipped (.notEnoughColumns f.name))
    else
      let cx := resolveFirst st.col_x df.cols
      let cy := resolveSecond st.col_y df.cols
      let st1 : CoreState := { st with col_x := cx, col_y := cy }
      match astypeFloat df cx, astypeFloat df cy with
      | some xs, some ys0 =>
        let ys1 := applyScale p.scale ys0
        match xs with
        | [] => .error (.emptyColumn f.name)
        | _ :: _ =>
          let grid := gridOf p.x_step xs
          if xs.length ≠ ys1.length then .ok (st1, .skipped (.lengthMismatch f.name))
          else
            match make_interp_spline f.name xs ys1 with
            | .error e => .error e
            | .ok ysq =>
              let ynew := grid.map (splineEval o xs ysq)
              let st2 : CoreState :=
                match st1.x_ticks with
                | none => { st1 with x_ticks := some (ticksOf xs) }
                | some _ => st1
              let label := labelOf p f.name
              match insertCol st2.matrix label ynew with
              | .error e => .error e
              | .ok m => .ok ({ st2 with matrix := m }, .accepted label cx cy grid)
      | _, _ => .ok (st1, .skipped (.floatConvFailed cx cy f.name))

/-- Run the loop over a list of files from a given state, collecting the
per-file results in order; the first uncaught error aborts the remainder of
the batch. -/
def runFiles (p : Params) (o : Oracle) (st : CoreState) :
    List DataFile → Except Fatal (CoreState × List FileResult)
  | [] => .ok (st, [])
  | f :: fs =>
    match processFile p o st f with
    | .error e => .error e
    | .ok (st1, r) =>
      match runFiles p o st1 fs with
      | .error e => .error e
      | .ok (st2, rs) => .ok (st2, r :: rs)

/-- The iteration order of app.py lines 105-109: in File sort mode with a
nonempty order list, the order entries are mapped through the name-keyed
dictionary of uploaded files (later duplicate names overwrite earlier ones,
entries absent from the uploads are dropped); otherwise the upload order. -/
def sortedFiles (p : Params) (files : List DataFile) : List DataFile :=
  if p.sort_method = .byFile ∧ p.order ≠ [] then
    p.order.filterMap (fun n => files.reverse.find? (fun f => f.name == n))
  else files

/-- The batch run from the initial state over the sorted file list. -/
def runBatch (p : Params) (o : Oracle) (files : List DataFile) :
    Except Fatal (CoreState × List FileResult) :=
  runFiles p o (initState p) (sortedFiles p files)

/-- The outcome of pressing the plot button (app.py lines 99-195, up to the
hand-off to the excluded rendering layer): nothing happens without uploads
(line 104); an uncaught exception aborts the run; an empty accumulated
matrix is the single terminal empty-result error (lines 171-172); otherwise
the matrix, optionally permuted by the similarity step (lines 175-178), is
delivered with the tick positions and the per-file results. -/
inductive PipelineResult where
  | noFiles
  | aborted (e : Fatal)
  | emptyResult
  | success (matrix : HeatmapData) (ticks : List ℚ) (results : List FileResult)
deriving DecidableEq, Repr

/-- The whole pipeline.  The similarity reordering of app.py lines 176-178
computes a permutation of the columns from the pairwise Euclidean distance
matrix of the rows; its sort order rests on floating-point sums of square
roots and on the unspecified tie behaviour of the default np.argsort kind, so
it is taken as an explicit parameter simPerm; no settled claim depends on
it, and every theorem below fixes a sort method that bypasses it or passes
it through untouched. -/
def pipeline (p : Params) (o : Oracle) (simPerm : HeatmapData → HeatmapData)
    (files : List DataFile) : PipelineResult :=
  if files.isEmpty then .noFiles
  else
    match runBatch p o files with
    | .error e => .aborted e
    | .ok (st, res) =>
      if st.matrix.isEmpty then .emptyResult
      else
        .success
          (if p.sort_method = .bySimilarity then simPerm st.matrix else st.matrix)
          (st.x_ticks.getD []) res

/-! ### Concrete inputs used by the counterexamples and witnesses -/

/-- Step 10, linear scale, no sorting, no label table, empty requested column
names: the parameter set of the concrete scenario in the specification. -/
def stepTenParams : Params := ⟨[], [], 10, .linear, .noSort, [], []⟩

/-- Step 1, otherwise like stepTenParams; used by the column-resolution
counterexample. -/
def stepOneParams : Params := ⟨[], [], 1, .linear, .noSort, [], []⟩

/-- The file a.txt of the concrete scenario: three samples. -/
def scenarioA3 : DataFile := ⟨"a.txt".data, ["10 5".data, "20 8".data, "30 3".data]⟩

/-- The file b.txt of the concrete scenario: three samples. -/
def scenarioB3 : DataFile := ⟨"b.txt".data, ["10 2".data, "20 9".data, "30 1".data]⟩

/-- a.txt with a fourth sample appended, enough for the cubic spline. -/
def scenarioA4 : DataFile :=
  ⟨"a.txt".data, ["10 5".data, "20 8".data, "30 3".data, "40 6".data]⟩

/-- b.txt with a fourth sample appended. -/
def scenarioB4 : DataFile :=
  ⟨"b.txt".data, ["10 2".data, "20 9".data, "30 1".data, "40 4".data]⟩

/-- A four-sample file whose x range 50..80 is disjoint from the 10..40 range
of scenarioA4 but yields a grid of the same length. -/
def farFile4 : DataFile :=
  ⟨"c.txt".data, ["50 1".data, "60 2".data, "70 3".data, "80 4".data]⟩

/-- A four-sample file whose x values are not sorted. -/
def unsortedFile : DataFile :=
  ⟨"u.txt".data, ["10 5".data, "30 8".data, "20 3".data, "40 6".data]⟩

/-- A five-sample file: its grid at step 10 has five points. -/
def fivePointFile : DataFile :=
  ⟨"d.txt".data,
    ["10 1".data, "20 2".data, "30 3".data, "40 4".data, "50 5".data]⟩

/-- A file with a single column. -/
def oneColFile : DataFile := ⟨"s.txt".data, ["5".data, "6".data]⟩

/-- Another file with a single column. -/
def oneColFile2 : DataFile := ⟨"t.txt".data, ["7".data, "8".data]⟩

/-- A file with a header row naming its columns a then b. -/
def headerFile1 : DataFile :=
  ⟨"f1.txt".data, ["#a b".data, "1 10".data, "2 20".data, "3 30".data, "4 40".data]⟩

/-- A file with a header row naming its columns in the opposite order: b then
a (the names render as the hash-a and hash-b tokens of the header lines). -/
def headerFile2 : DataFile :=
  ⟨"f2.txt".data, ["#b #a".data, "1 51".data, "2 52".data, "3 53".data, "4 54".data]⟩

/-! ### Helper lemmas -/

/-- Every row of the matrix has the same vector length. -/
def rowsSameLength (m : HeatmapData) : Prop :=
  ∀ c1 ∈ m, ∀ c2 ∈ m, c1.2.length = c2.2.length

/-- The label of an accepted file result. -/
def acceptedLabel? : FileResult → Option Chars
  | .accepted l _ _ _ => some l
  | .skipped _ => none

/-- Skip test on a file result. -/
def isSkippedB : FileResult → Bool
  | .skipped _ => true
  | .accepted _ _ _ _ => false

theorem replaceCol_mem {m : HeatmapData} {label : Chars} {v : List ℚ}
    {c : Chars × List ℚ} (h : c ∈ replaceCol m label v) :
    c ∈ m ∨ c = (label, v) := by
  induction m with
  | nil => simp [replaceCol] at h
  | cons kv t ih =>
    obtain ⟨k, w⟩ := kv
    simp only [replaceCol] at h
    by_cases hk : k = label
    · rw [if_pos hk] at h
      rw [List.mem_cons] at h
      rcases h with h | h
      · right; rw [h, hk]
      · left; exact List.mem_cons_of_mem _ h
    · rw [if_neg hk] at h
      rw [List.mem_cons] at h
      rcases h with h | h
      · left; rw [h]; exact List.mem_cons_self _ _
      · rcases ih h with h1 | h1
        · left; exact List.mem_cons_of_mem _ h1
        · right; exact h1

theorem replaceCol_self_mem {m : HeatmapData} {label : Chars} {v : List ℚ}
    (h : label ∈ m.map Prod.fst) : (label, v) ∈ replaceCol m label v := by
  induction m with
  | nil => simp at h
  | cons kv t ih =>
    obtain ⟨k, w⟩ := kv
    simp only [replaceCol]
    by_cases hk : k = label
    · rw [if_pos hk]
      rw [hk]
      exact List.mem_cons_self _ _
    · rw [if_neg hk]
      have h' : label ∈ t.map Prod.fst := by
        simp only [List.map_cons, List.mem_cons] at h
        rcases h with h | h
        · exact absurd h.symm hk
        · exact h
      exact List.mem_cons_of_mem _ (ih h')

theorem insertCol_mem_either {m m' : HeatmapData} {label : Chars} {v : List ℚ}
    (h : insertCol m label v = .ok m') {c : Chars × List ℚ} (hc : c ∈ m') :
    c ∈ m ∨ c = (label, v) := by
  rcases m with _ | ⟨⟨k0, v0⟩, t⟩
  · simp only [insertCol] at h
    cases h
    simp at hc
    right; exact hc
  · simp only [insertCol] at h
    by_cases hlen : v.length ≠ v0.length
    · rw [if_pos hlen] at h; cases h
    · rw [if_neg hlen] at h
      by_cases hmem : label ∈ ((k0, v0) :: t).map Prod.fst
      · rw [if_pos hmem] at h; cases h
        exact replaceCol_mem hc
      · rw [if_neg hmem] at h; cases h
        rcases List.mem_append.mp hc with h1 | h1
        · left; exact h1
        · right; simpa using h1

theorem insertCol_self_mem {m m' : HeatmapData} {label : Chars} {v : List ℚ}
    (h : insertCol m label v = .ok m') : (label, v) ∈ m' := by
  rcases m with _ | ⟨⟨k0, v0⟩, t⟩
  · simp only [insertCol] at h; cases h; simp
  · simp only [insertCol] at h
    by_cases hlen : v.length ≠ v0.length
    · rw [if_pos hlen] at h; cases h
    · rw [if_neg hlen] at h
      by_cases hmem : label ∈ ((k0, v0) :: t).map Prod.fst
      · rw [if_pos hmem] at h; cases h
        exact replaceCol_self_mem hmem
      · rw [if_neg hmem] at h; cases h; simp

theorem insertCol_length_ok {m : HeatmapData} {k0 : Chars} {v0 : List ℚ}
    {t : HeatmapData} {label : Chars} {v : List ℚ} {m' : HeatmapData}
    (hm : m = (k0, v0) :: t) (h : insertCol m label v = .ok m') :
    v.length = v0.length := by
  subst hm
  simp only [insertCol] at h
  by_cases hlen : v.length ≠ v0.length
  · rw [if_pos hlen] at h; cases h
  · exact Classical.not_not.mp hlen

theorem insertCol_sameLength {m m' : HeatmapData} {label : Chars} {v : List ℚ}
    (h : insertCol m label v = .ok m') (hs : rowsSameLength m) :
    rowsSameLength m' := by
  rcases m with _ | ⟨⟨k0, v0⟩, t⟩
  · simp only [insertCol] at h; cases h
    intro c1 h1 c2 h2
    simp at h1 h2; rw [h1, h2]
  · have hv : v.length = v0.length := insertCol_length_ok rfl h
    have hall : ∀ c ∈ m', c.2.length = v0.length := by
      intro c hc
      rcases insertCol_mem_either h hc with h1 | h1
      · exact hs c h1 (k0, v0) (List.mem_cons_self _ _)
      · rw [h1]; exact hv
    intro c1 h1 c2 h2
    rw [hall c1 h1, hall c2 h2]

/-- A file that is skipped never touches the accumulating matrix or the tick
positions (the skip branches of app.py lines 125-127, 135-137, 143-145 and
157-159 all run before lines 164-169). -/
theorem processFile_skip_state {p : Params} {o : Oracle} {st st' : CoreState}
    {f : DataFile} {d : Diag}
    (h : processFile p o st f = .ok (st', .skipped d)) :
    st'.matrix = st.matrix ∧ st'.x_ticks = st.x_ticks := by
  unfold processFile at h
  cases hp : parseFrame f with
  | error e => simp only [hp] at h; cases h
  | ok df =>
    simp only [hp] at h
    by_cases hc : df.cols.length < 2
    · rw [if_pos hc] at h
      cases h
      exact ⟨rfl, rfl⟩
    · rw [if_neg hc] at h
      cases hx : astypeFloat df (resolveFirst st.col_x df.cols) with
      | none =>
        simp only [hx] at h
        cases h
        exact ⟨rfl, rfl⟩
      | some xs =>
        simp only [hx] at h
        cases hy : astypeFloat df (resolveSecond st.col_y df.cols) with
        | none =>
          simp only [hy] at h
          cases h
          exact ⟨rfl, rfl⟩
        | some ys0 =>
          simp only [hy] at h
          cases xs with
          | nil => cases h
          | cons x0 xt =>
            simp only [] at h
            by_cases hl : (x0 :: xt).length ≠ (applyScale p.scale ys0).length
            · rw [if_pos hl] at h
              cases h
              exact ⟨rfl, rfl⟩
            · rw [if_neg hl] at h
              cases hs : make_interp_spline f.name (x0 :: xt) (applyScale p.scale ys0) with
              | error e => simp only [hs] at h; cases h
              | ok ysq =>
                simp only [hs] at h
                cases ht : st.x_ticks with
                | none =>
                  simp only [ht] at h
                  split at h
                  · cases h
                  · cases h
                | some tk =>
                  simp only [ht] at h
                  split at h
                  · cases h
                  · cases h

/-- Everything that is true of a successfully accepted file: the structural
parse succeeded with at least two columns, the x and y columns were resolved
from the current state, the float conversion succeeded, spline construction
succeeded on the scaled values, the grid is the arange of this file's own x
range, the label is the resolved display label and the column vector obtained
by evaluating the spline on the grid was inserted into the matrix. -/
theorem processFile_accept_spec {p : Params} {o : Oracle} {st st' : CoreState}
    {f : DataFile} {lab : Chars} {cx cy : ColKey} {grid : List ℚ}
    (h : processFile p o st f = .ok (st', .accepted lab cx cy grid)) :
    ∃ df xs ys0 ysq, parseFrame f = .ok df ∧ 2 ≤ df.cols.length ∧
      cx = resolveFirst st.col_x df.cols ∧ cy = resolveSecond st.col_y df.cols ∧
      astypeFloat df cx = some xs ∧ astypeFloat df cy = some ys0 ∧ xs ≠ [] ∧
      make_interp_spline f.name xs (applyScale p.scale ys0) = .ok ysq ∧
      grid = gridOf p.x_step xs ∧ lab = labelOf p f.name ∧
      insertCol st.matrix lab (grid.map (splineEval o xs ysq)) = .ok st'.matrix ∧
      st'.col_x = cx ∧ st'.col_y = cy := by
  unfold processFile at h
  cases hp : parseFrame f with
  | error e => simp only [hp] at h; cases h
  | ok df =>
    simp only [hp] at h
    by_cases hc : df.cols.length < 2
    · rw [if_pos hc] at h
      cases h
    · rw [if_neg hc] at h
      cases hx : astypeFloat df (resolveFirst st.col_x df.cols) with
      | none => simp only [hx] at h; cases h
      | some xs =>
        simp only [hx] at h
        cases hy : astypeFloat df (resolveSecond st.col_y df.cols) with
        | none => simp only [hy] at h; cases h
        | some ys0 =>
          simp only [hy] at h
          cases xs with
          | nil => cases h
          | cons x0 xt =>
            simp only [] at h
            by_cases hl : (x0 :: xt).length ≠ (applyScale p.scale ys0).length
            · rw [if_pos hl] at h
              cases h
            · rw [if_neg hl] at h
              cases hs : make_interp_spline f.name (x0 :: xt) (applyScale p.scale ys0) with
              | error e => simp only [hs] at h; cases h
              | ok ysq =>
                simp only [hs] at h
                cases ht : st.x_ticks with
                | none =>
                  simp only [ht] at h
                  split at h
                  · cases h
                  next m hins =>
                    cases h
                    exact ⟨df, x0 :: xt, ys0, ysq, rfl, Nat.le_of_not_lt hc, rfl, rfl,
                      hx, hy, List.cons_ne_nil x0 xt, hs, rfl, rfl, hins, rfl, rfl⟩
                | some tk =>
                  simp only [ht] at h
                  split at h
                  · cases h
                  next m hins =>
                    cases h
                    exact ⟨df, x0 :: xt, ys0, ysq, rfl, Nat.le_of_not_lt hc, rfl, rfl,
                      hx, hy, List.cons_ne_nil x0 xt, hs, rfl, rfl, hins, rfl, rfl⟩

theorem runFiles_nil (p : Params) (o : Oracle) (st : CoreState) :
    runFiles p o st [] = .ok (st, []) := rfl

theorem runFiles_cons (p : Params) (o : Oracle) (st : CoreState)
    (f : DataFile) (fs : List DataFile) :
    runFiles p o st (f :: fs) =
      match processFile p o st f with
      | .error e => .error e
      | .ok (st1, r) =>
        match runFiles p o st1 fs with
        | .error e => .error e
        | .ok (st2, rs) => .ok (st2, r :: rs) := rfl

/-- Splitting a run over an appended batch at the join point. -/
theorem runFiles_append (p : Params) (o : Oracle) (st : CoreState)
    (A B : List DataFile) :
    runFiles p o st (A ++ B) =
      match runFiles p o st A with
      | .error e => .error e
      | .ok (st1, rs) =>
        match runFiles p o st1 B with
        | .error e => .error e
        | .ok (st2, rs2) => .ok (st2, rs ++ rs2) := by
  induction A generalizing st with
  | nil =>
    simp only [List.nil_append, runFiles_nil]
    cases hB : runFiles p o st B with
    | error e => rfl
    | ok pr => obtain ⟨st2, rs2⟩ := pr; simp
  | cons f ft ih =>
    simp only [List.cons_append, runFiles_cons]
    cases hf : processFile p o st f with
    | error e => rfl
    | ok pr =>
      obtain ⟨st1, r⟩ := pr
      simp only []
      rw [ih st1]
      cases hA : runFiles p o st1 ft with
      | error e => rfl
      | ok pr2 =>
        obtain ⟨st2, rs⟩ := pr2
        simp only []
        cases hB : runFiles p o st2 B with
        | error e => rfl
        | ok pr3 => obtain ⟨st3, rs3⟩ := pr3; simp

/-- A run that completes yields one result per file. -/
theorem runFiles_length {p : Params} {o : Oracle} {st st' : CoreState}
    {fs : List DataFile} {rs : List FileResult}
    (h : runFiles p o st fs = .ok (st', rs)) : rs.length = fs.length := by
  induction fs generalizing st rs with
  | nil => rw [runFiles_nil] at h; cases h; rfl
  | cons f ft ih =>
    rw [runFiles_cons] at h
    cases hf : processFile p o st f with
    | error e => rw [hf] at h; cases h
    | ok pr =>
      obtain ⟨st1, r⟩ := pr
      rw [hf] at h
      simp only [] at h
      cases hA : runFiles p o st1 ft with
      | error e => rw [hA] at h; cases h
      | ok pr2 =>
        obtain ⟨st2, rs2⟩ := pr2
        rw [hA] at h
        cases h
        simp [ih hA]

/-- Any single loop step preserves the equal-row-length invariant of the
matrix: a skipped file leaves it untouched and an accepted one only inserts a
vector whose length pandas has checked against the current index. -/
theorem processFile_sameLength {p : Params} {o : Oracle} {st st' : CoreState}
    {f : DataFile} {r : FileResult}
    (h : processFile p o st f = .ok (st', r)) (hs : rowsSameLength st.matrix) :
    rowsSameLength st'.matrix := by
  cases r with
  | skipped d => rw [(processFile_skip_state h).1]; exact hs
  | accepted lab cx cy grid =>
    obtain ⟨df, xs, ys0, ysq, -, -, -, -, -, -, -, -, -, -, hins, -, -⟩ :=
      processFile_accept_spec h
    exact insertCol_sameLength hins hs

/-- A completed run preserves the equal-row-length invariant. -/
theorem runFiles_sameLength {p : Params} {o : Oracle} {st st' : CoreState}
    {fs : List DataFile} {rs : List FileResult}
    (h : runFiles p o st fs = .ok (st', rs)) (hs : rowsSameLength st.matrix) :
    rowsSameLength st'.matrix := by
  induction fs generalizing st rs with
  | nil => rw [runFiles_nil] at h; cases h; exact hs
  | cons f ft ih =>
    rw [runFiles_cons] at h
    cases hf : processFile p o st f with
    | error e => rw [hf] at h; cases h
    | ok pr =>
      obtain ⟨st1, r⟩ := pr
      rw [hf] at h
      simp only [] at h
      cases hA : runFiles p o st1 ft with
      | error e => rw [hA] at h; cases h
      | ok pr2 =>
        obtain ⟨st2, rs2⟩ := pr2
        rw [hA] at h
        cases h
        exact ih hA (processFile_sameLength hf hs)

/-- A run in which every file was skipped leaves the matrix untouched. -/
theorem runFiles_all_skipped {p : Params} {o : Oracle} {st st' : CoreState}
    {fs : List DataFile} {rs : List FileResult}
    (h : runFiles p o st fs = .ok (st', rs))
    (hsk : ∀ r ∈ rs, isSkippedB r = true) : st'.matrix = st.matrix := by
  induction fs generalizing st rs with
  | nil => rw [runFiles_nil] at h; cases h; rfl
  | cons f ft ih =>
    rw [runFiles_cons] at h
    cases hf : processFile p o st f with
    | error e => rw [hf] at h; cases h
    | ok pr =>
      obtain ⟨st1, r⟩ := pr
      rw [hf] at h
      simp only [] at h
      cases hA : runFiles p o st1 ft with
      | error e => rw [hA] at h; cases h
      | ok pr2 =>
        obtain ⟨st2, rs2⟩ := pr2
        rw [hA] at h
        cases h
        have hr : isSkippedB r = true := hsk r (List.mem_cons_self _ _)
        cases r with
        | accepted lab cx cy grid => simp [isSkippedB] at hr
        | skipped d =>
          rw [ih hA (fun r2 h2 => hsk r2 (List.mem_cons_of_mem _ h2))]
          exact (processFile_skip_state hf).1

/-- A file whose parsed table has fewer than two columns is skipped with the
not-enough-columns warning and the state is left completely unchanged: the
shape check of app.py line 125 runs before the column resolution of lines
130-133. -/
theorem processFile_fewCols {p : Params} {o : Oracle} {st : CoreState}
    {f : DataFile} {df : PDataFrame} (hp : parseFrame f = .ok df)
    (hc : df.cols.length < 2) :
    processFile p o st f = .ok (st, .skipped (.notEnoughColumns f.name)) := by
  unfold processFile
  rw [hp]
  simp only []
  rw [if_pos hc]

theorem replaceCol_keys (m : HeatmapData) (label : Chars) (v : List ℚ) :
    (replaceCol m label v).map Prod.fst = m.map Prod.fst := by
  induction m with
  | nil => rfl
  | cons kv t ih =>
    obtain ⟨k, w⟩ := kv
    simp only [replaceCol]
    by_cases hk : k = label
    · rw [if_pos hk]
      simp
    · rw [if_neg hk]
      simp [ih]

theorem insertCol_keys {m m' : HeatmapData} {label : Chars} {v : List ℚ}
    (h : insertCol m label v = .ok m') :
    m'.map Prod.fst =
      if label ∈ m.map Prod.fst then m.map Prod.fst
      else m.map Prod.fst ++ [label] := by
  rcases m with _ | ⟨⟨k0, v0⟩, t⟩
  · simp only [insertCol] at h; cases h; simp
  · simp only [insertCol] at h
    by_cases hlen : v.length ≠ v0.length
    · rw [if_pos hlen] at h; cases h
    · rw [if_neg hlen] at h
      by_cases hmem : label ∈ ((k0, v0) :: t).map Prod.fst
      · rw [if_pos hmem] at h; cases h
        rw [if_pos hmem, replaceCol_keys]
      · rw [if_neg hmem] at h; cases h
        rw [if_neg hmem]
        simp

/-- Accepting a file inserts its resolved label as a matrix key (or overwrites
the existing key in place). -/
theorem processFile_accept_keys {p : Params} {o : Oracle} {st st' : CoreState}
    {f : DataFile} {lab : Chars} {cx cy : ColKey} {grid : List ℚ}
    (h : processFile p o st f = .ok (st', .accepted lab cx cy grid)) :
    st'.matrix.map Prod.fst =
      if lab ∈ st.matrix.map Prod.fst then st.matrix.map Prod.fst
      else st.matrix.map Prod.fst ++ [lab] := by
  obtain ⟨df, xs, ys0, ysq, -, -, -, -, -, -, -, -, -, -, hins, -, -⟩ :=
    processFile_accept_spec h
  exact insertCol_keys hins

/-- A completed run in which every file was accepted, under pairwise distinct
labels that are also new to the matrix, extends the matrix keys by exactly
those labels in order. -/
theorem runFiles_keys_extend {p : Params} {o : Oracle} {st st' : CoreState}
    {fs : List DataFile} {rs : List FileResult}
    (h : runFiles p o st fs = .ok (st', rs))
    (hacc : ∀ r ∈ rs, (acceptedLabel? r).isSome)
    (hnodup : (rs.filterMap acceptedLabel?).Nodup)
    (hdisj : ∀ l ∈ rs.filterMap acceptedLabel?, l ∉ st.matrix.map Prod.fst) :
    st'.matrix.map Prod.fst =
      st.matrix.map Prod.fst ++ rs.filterMap acceptedLabel? := by
  induction fs generalizing st rs with
  | nil => rw [runFiles_nil] at h; cases h; simp
  | cons f ft ih =>
    rw [runFiles_cons] at h
    cases hf : processFile p o st f with
    | error e => rw [hf] at h; cases h
    | ok pr =>
      obtain ⟨st1, r⟩ := pr
      rw [hf] at h
      simp only [] at h
      cases hA : runFiles p o st1 ft with
      | error e => rw [hA] at h; cases h
      | ok pr2 =>
        obtain ⟨st2, rs2⟩ := pr2
        rw [hA] at h
        cases h
        cases r with
        | skipped d =>
          have hbad := hacc _ (List.mem_cons_self _ _)
          simp [acceptedLabel?] at hbad
        | accepted lab cx cy grid =>
          have hkeys1 := processFile_accept_keys hf
          have hfm : ((FileResult.accepted lab cx cy grid) :: rs2).filterMap
              acceptedLabel? = lab :: rs2.filterMap acceptedLabel? := by
            simp [acceptedLabel?]
          rw [hfm] at hnodup hdisj ⊢
          have hlab_notin : lab ∉ st.matrix.map Prod.fst :=
            hdisj lab (List.mem_cons_self _ _)
          rw [if_neg hlab_notin] at hkeys1
          have hnd := List.nodup_cons.mp hnodup
          have hdisj2 : ∀ l ∈ rs2.filterMap acceptedLabel?,
              l ∉ st1.matrix.map Prod.fst := by
            intro l hl
            rw [hkeys1]
            simp only [List.mem_append, List.mem_singleton]
            rintro (hin | hl1)
            · exact hdisj l (List.mem_cons_of_mem _ hl) hin
            · exact hnd.1 (hl1 ▸ hl)
          have hrec := ih hA (fun r2 h2 => hacc r2 (List.mem_cons_of_mem _ h2))
            hnd.2 hdisj2
          rw [hrec, hkeys1]
          simp

/-- Forward evaluation of one loop step up to the spline call, ending in an
uncaught spline-construction error. -/
theorem processFile_spline_error {p : Params} {o : Oracle} {st : CoreState}
    {f : DataFile} {df : PDataFrame} {xs ys0 : List ℚ} {e : Fatal}
    (hdf : parseFrame f = .ok df) (hc : ¬ df.cols.length < 2)
    (hx : astypeFloat df (resolveFirst st.col_x df.cols) = some xs)
    (hy : astypeFloat df (resolveSecond st.col_y df.cols) = some ys0)
    (hne : xs ≠ [])
    (hlen : ¬ xs.length ≠ (applyScale p.scale ys0).length)
    (hs : make_interp_spline f.name xs (applyScale p.scale ys0) = .error e) :
    processFile p o st f = .error e := by
  unfold processFile
  rw [hdf]
  simp only []
  rw [if_neg hc, hx, hy]
  simp only []
  rcases xs with _ | ⟨x0, xt⟩
  · exact absurd rfl hne
  · simp only []
    rw [if_neg hlen, hs]

/-- Forward evaluation of one loop step through a successful spline, ending in
the uncaught pandas length error at column insertion: the state already holds
a first column of a different length. -/
theorem processFile_insert_mismatch {p : Params} {o : Oracle} {st : CoreState}
    {f : DataFile} {df : PDataFrame} {xs ys0 ysq : List ℚ}
    {v0 : Chars × List ℚ} {rest : HeatmapData}
    (hm : st.matrix = v0 :: rest)
    (hdf : parseFrame f = .ok df) (hc : ¬ df.cols.length < 2)
    (hx : astypeFloat df (resolveFirst st.col_x df.cols) = some xs)
    (hy : astypeFloat df (resolveSecond st.col_y df.cols) = some ys0)
    (hne : xs ≠ [])
    (hlen : ¬ xs.length ≠ (applyScale p.scale ys0).length)
    (hs : make_interp_spline f.name xs (applyScale p.scale ys0) = .ok ysq)
    (hg : (gridOf p.x_step xs).length ≠ v0.2.length) :
    processFile p o st f = .error (.insertLengthMismatch (labelOf p f.name)) := by
  unfold processFile
  rw [hdf]
  simp only []
  rw [if_neg hc, hx, hy]
  simp only []
  rcases xs with _ | ⟨x0, xt⟩
  · exact absurd rfl hne
  · simp only []
    rw [if_neg hlen, hs]
    simp only []
    have hins : insertCol st.matrix (labelOf p f.name)
        ((gridOf p.x_step (x0 :: xt)).map (splineEval o (x0 :: xt) ysq)) =
        .error (.insertLengthMismatch (labelOf p f.name)) := by
      rw [hm]
      obtain ⟨k0, w0⟩ := v0
      simp only [insertCol]
      rw [if_pos (by simpa using hg)]
    cases ht : st.x_ticks with
    | none => simp only [ht, hins]
    | some tk => simp only [ht, hins]

/-- An uncaught per-file error aborts the whole batch: the remaining files are
never processed. -/
theorem runFiles_error_propagates {p : Params} {o : Oracle} {st0 st : CoreState}
    {pre : List DataFile} {f : DataFile} {post : List DataFile}
    {rs : List FileResult} {e : Fatal}
    (h1 : runFiles p o st0 pre = .ok (st, rs))
    (h2 : processFile p o st f = .error e) :
    runFiles p o st0 (pre ++ f :: post) = .error e := by
  rw [runFiles_append, h1]
  simp only []
  rw [runFiles_cons, h2]

/-- Resolution of the x column is idempotent over a fixed column list: a
second file with the same columns resolves to the same key as the first. -/
theorem resolveFirst_idem (cur : ColKey) (cols : List ColKey) :
    resolveFirst (resolveFirst cur cols) cols = resolveFirst cur cols := by
  simp only [resolveFirst]
  split_ifs with h1 h2
  · rfl
  · rfl
  · rfl

/-- Resolution of the y column is idempotent over a fixed column list. -/
theorem resolveSecond_idem (cur : ColKey) (cols : List ColKey) :
    resolveSecond (resolveSecond cur cols) cols = resolveSecond cur cols := by
  simp only [resolveSecond]
  split_ifs with h1 h2
  · rfl
  · rfl
  · rfl

/-- Before the fill step, the transformed series is finite exactly at the
entries above -1 (the replace call turns the minus infinity at -1 into NaN,
and entries below -1 were already NaN). -/
theorem logRepair_pre (ys : List ℚ) :
    (ys.map np_log1p).map (fun v => if v = TVal.neginf then TVal.nan else v) =
      ys.map (fun y => if -1 < y then TVal.fin y else TVal.nan) := by
  induction ys with
  | nil => rfl
  | cons y t ih =>
    simp only [List.map_cons] at ih ⊢
    rw [ih]
    congr 1
    unfold np_log1p
    by_cases h1 : -1 < y
    · rw [if_pos h1, if_pos h1]
      simp
    · rw [if_neg h1, if_neg h1]
      by_cases h2 : y = -1
      · rw [if_pos h2]
        simp
      · rw [if_neg h2]
        simp

theorem maxFinQ_g_none {ys : List ℚ}
    (h : maxFinQ (ys.map (fun y => if -1 < y then TVal.fin y else TVal.nan)) =
      none) :
    ∀ y ∈ ys, ¬(-1 < y) := by
  induction ys with
  | nil => intro y hy; cases hy
  | cons y t ih =>
    simp only [List.map_cons] at h
    by_cases h1 : -1 < y
    · rw [if_pos h1] at h
      unfold maxFinQ at h
      cases hm : maxFinQ (t.map (fun y => if -1 < y then TVal.fin y else TVal.nan)) with
      | none => rw [hm] at h; cases h
      | some m => rw [hm] at h; cases h
    · rw [if_neg h1] at h
      have h2 : maxFinQ (t.map (fun y => if -1 < y then TVal.fin y else TVal.nan)) =
          none := h
      intro z hz
      rw [List.mem_cons] at hz
      rcases hz with hz | hz
      · rw [hz]; exact h1
      · exact ih h2 z hz

theorem maxFinQ_g_some {ys : List ℚ} {m : ℚ}
    (h : maxFinQ (ys.map (fun y => if -1 < y then TVal.fin y else TVal.nan)) =
      some m) :
    m ∈ ys ∧ -1 < m ∧ ∀ y ∈ ys, -1 < y → y ≤ m := by
  induction ys generalizing m with
  | nil => cases h
  | cons y t ih =>
    simp only [List.map_cons] at h
    by_cases h1 : -1 < y
    · rw [if_pos h1] at h
      unfold maxFinQ at h
      cases hm : maxFinQ (t.map (fun y => if -1 < y then TVal.fin y else TVal.nan)) with
      | none =>
        rw [hm] at h
        cases h
        refine ⟨List.mem_cons_self _ _, h1, ?_⟩
        intro z hz hzgt
        rw [List.mem_cons] at hz
        rcases hz with hz | hz
        · rw [hz]
        · exact absurd hzgt (maxFinQ_g_none hm z hz)
      | some m2 =>
        rw [hm] at h
        cases h
        obtain ⟨hmem, hgt, hbd⟩ := ih hm
        refine ⟨?_, ?_, ?_⟩
        · rcases max_choice y m2 with hc | hc
          · rw [hc]; exact List.mem_cons_self _ _
          · rw [hc]; exact List.mem_cons_of_mem _ hmem
        · exact lt_of_lt_of_le h1 (le_max_left y m2)
        · intro z hz hzgt
          rw [List.mem_cons] at hz
          rcases hz with hz | hz
          · rw [hz]; exact le_max_left y m2
          · exact le_trans (hbd z hz hzgt) (le_max_right y m2)
    · rw [if_neg h1] at h
      have h2 : maxFinQ (t.map (fun y => if -1 < y then TVal.fin y else TVal.nan)) =
          some m := h
      obtain ⟨hmem, hgt, hbd⟩ := ih h2
      refine ⟨List.mem_cons_of_mem _ hmem, hgt, ?_⟩
      intro z hz hzgt
      rw [List.mem_cons] at hz
      rcases hz with hz | hz
      · exact absurd hzgt (hz ▸ h1)
      · exact hbd z hz hzgt

theorem fill_map (ys : List ℚ) (m : ℚ) :
    (ys.map (fun y => if -1 < y then TVal.fin y else TVal.nan)).map
      (fun v => if v = TVal.nan then TVal.fin m else v) =
      ys.map (fun y => if -1 < y then TVal.fin y else TVal.fin m) := by
  induction ys with
  | nil => rfl
  | cons y t ih =>
    simp only [List.map_cons] at ih ⊢
    rw [ih]
    congr 1
    by_cases h1 : -1 < y
    · rw [if_pos h1, if_pos h1]
      simp
    · rw [if_neg h1, if_neg h1]
      simp

/-- When at least one entry of the series lies above -1, the repaired series
replaces every entry at or below -1 (whose transform was nonfinite) by the
largest finite transformed value, namely the transform of the largest entry
above -1, and leaves the finite entries untouched. -/
theorem logRepair_char {ys : List ℚ} (hex : ∃ y ∈ ys, -1 < y) :
    ∃ m, m ∈ ys ∧ -1 < m ∧ (∀ y ∈ ys, -1 < y → y ≤ m) ∧
      logRepair ys = ys.map (fun y => if -1 < y then TVal.fin y else TVal.fin m) := by
  unfold logRepair
  simp only []
  rw [logRepair_pre]
  cases hm : maxFinQ (ys.map (fun y => if -1 < y then TVal.fin y else TVal.nan)) with
  | none =>
    obtain ⟨y0, hy0, hy0gt⟩ := hex
    exact absurd hy0gt (maxFinQ_g_none hm y0 hy0)
  | some m =>
    obtain ⟨hmem, hgt, hbd⟩ := maxFinQ_g_some hm
    exact ⟨m, hmem, hgt, hbd, fill_map ys m⟩

/-! ### Claim theorems -/

/-- Claim C1, counterexample.  The claim says the shared grid is computed once
from the first successfully parsed series and reused unchanged for every
subsequent series, no later file x range influencing it.  In this concrete
run both files are accepted into the matrix, yet the per-file results record
that the first file was resampled on the grid 10..40 and the second on the
grid 50..80 computed from its own x range: the second grid differs from the
first, refuting the claim at this input. -/
theorem c1_counterexample :
    pipeline stepTenParams zeroOracle id [scenarioA4, farFile4] =
      .success [("a".data, [5, 8, 3, 6]), ("c".data, [1, 2, 3, 4])]
        [10, 20, 30, 40]
        [.accepted "a".data (.idx 0) (.idx 1) [10, 20, 30, 40],
         .accepted "c".data (.idx 0) (.idx 1) [50, 60, 70, 80]] ∧
      ([50, 60, 70, 80] : List ℚ) ≠ [10, 20, 30, 40] :=
  ⟨by with_unfolding_all rfl, by decide⟩

/-- Claim C1, amended: the resampling grid is recomputed for every file from
that file's own x column by the fixed arange formula; it depends only on the
file content and the current column-resolution keys, never on the grid of any
earlier file (two runs of the step from states agreeing on the column keys
give the same grid, and that grid is the arange of the file's own x values).
The x ticks, not the grid, are the only once-computed quantity. -/
theorem c1_grid_recomputed_per_file :
    ∀ (p : Params) (o : Oracle) (st st2 st' st2' : CoreState) (f : DataFile)
      (lab lab2 : Chars) (cx cx2 cy cy2 : ColKey) (grid grid2 : List ℚ),
      st.col_x = st2.col_x → st.col_y = st2.col_y →
      processFile p o st f = .ok (st', .accepted lab cx cy grid) →
      processFile p o st2 f = .ok (st2', .accepted lab2 cx2 cy2 grid2) →
      grid2 = grid ∧
      ∃ df xs, parseFrame f = .ok df ∧ cx = resolveFirst st.col_x df.cols ∧
        astypeFloat df cx = some xs ∧ grid = gridOf p.x_step xs := by
  intro p o st st2 st' st2' f lab lab2 cx cx2 cy cy2 grid grid2 hcx hcy h1 h2
  obtain ⟨df, xs, ys0, ysq, hdf, -, hcx1, -, hx1, -, -, -, hg1, -, -, -, -⟩ :=
    processFile_accept_spec h1
  obtain ⟨df2, xs2, ys02, ysq2, hdf2, -, hcx2, -, hx2, -, -, -, hg2, -, -, -, -⟩ :=
    processFile_accept_spec h2
  rw [hdf] at hdf2
  have hdfeq : df2 = df := (Except.ok.inj hdf2).symm
  subst hdfeq
  have hcols : cx2 = cx := by rw [hcx1, hcx2, hcx]
  rw [hcols, hx1] at hx2
  have hxs : xs2 = xs := (Option.some.inj hx2).symm
  subst hxs
  exact ⟨by rw [hg2, ← hg1], df2, xs2, hdf, hcx1, hx1, hg1⟩

/-- Claim C1, witness for the amended theorem, instantiated at the first
scenario file processed from the initial state. -/
theorem c1_witness :
    ([10, 20, 30, 40] : List ℚ) = [10, 20, 30, 40] ∧
    ∃ df xs, parseFrame scenarioA4 = .ok df ∧
      ColKey.idx 0 = resolveFirst (initState stepTenParams).col_x df.cols ∧
      astypeFloat df (.idx 0) = some xs ∧
      ([10, 20, 30, 40] : List ℚ) = gridOf stepTenParams.x_step xs :=
  c1_grid_recomputed_per_file stepTenParams zeroOracle
    (initState stepTenParams) (initState stepTenParams)
    ⟨.idx 0, .idx 1, some [10, 20, 30, 40], [("a".data, [5, 8, 3, 6])]⟩
    ⟨.idx 0, .idx 1, some [10, 20, 30, 40], [("a".data, [5, 8, 3, 6])]⟩
    scenarioA4 "a".data "a".data (.idx 0) (.idx 0) (.idx 1) (.idx 1)
    [10, 20, 30, 40] [10, 20, 30, 40] rfl rfl
    (by with_unfolding_all rfl) (by with_unfolding_all rfl)

/-- Claim C2: for every file accepted into the matrix, the grid it was
resampled on equals arange of (the ceiling of its own minimum x over the step
times the step) up to its maximum x plus the step, with the configured step;
the stored aligned vector is the spline evaluated on that grid, so its length
is exactly the grid length; and in any completed batch run all matrix rows
have identical length (the pandas index makes any differing insertion abort
the run instead). -/
theorem c2_grid_formula_and_row_lengths :
    (∀ (p : Params) (o : Oracle) (st st' : CoreState) (f : DataFile)
       (lab : Chars) (cx cy : ColKey) (grid : List ℚ),
       processFile p o st f = .ok (st', .accepted lab cx cy grid) →
       ∃ df xs ysq, parseFrame f = .ok df ∧
         astypeFloat df (resolveFirst st.col_x df.cols) = some xs ∧
         grid = np_arange ((ratCeil (listMin xs / p.x_step) : ℚ) * p.x_step)
           (listMax xs + p.x_step) p.x_step ∧
         (lab, grid.map (splineEval o xs ysq)) ∈ st'.matrix ∧
         (grid.map (splineEval o xs ysq)).length = grid.length) ∧
    (∀ (p : Params) (o : Oracle) (files : List DataFile) (st : CoreState)
       (res : List FileResult),
       runBatch p o files = .ok (st, res) → rowsSameLength st.matrix) := by
  constructor
  · intro p o st st' f lab cx cy grid h
    obtain ⟨df, xs, ys0, ysq, hdf, -, hcx, -, hx, -, -, -, hg, -, hins, -, -⟩ :=
      processFile_accept_spec h
    refine ⟨df, xs, ysq, hdf, ?_, hg, insertCol_self_mem hins, by simp⟩
    rw [← hcx]
    exact hx
  · intro p o files st res h
    exact runFiles_sameLength h (fun c1 h1 => absurd h1 (List.not_mem_nil c1))

/-- Claim C2, witness: the accepted first scenario file, and the row-length
invariant of the completed two-file scenario run. -/
theorem c2_witness :
    (∃ df xs ysq, parseFrame scenarioA4 = .ok df ∧
      astypeFloat df (resolveFirst (initState stepTenParams).col_x df.cols) =
        some xs ∧
      ([10, 20, 30, 40] : List ℚ) =
        np_arange ((ratCeil (listMin xs / stepTenParams.x_step) : ℚ) *
          stepTenParams.x_step) (listMax xs + stepTenParams.x_step)
          stepTenParams.x_step ∧
      ("a".data, ([10, 20, 30, 40] : List ℚ).map
        (splineEval zeroOracle xs ysq)) ∈
        [("a".data, ([5, 8, 3, 6] : List ℚ))] ∧
      (([10, 20, 30, 40] : List ℚ).map (splineEval zeroOracle xs ysq)).length =
        ([10, 20, 30, 40] : List ℚ).length) ∧
    rowsSameLength [("a".data, ([5, 8, 3, 6] : List ℚ)),
      ("b".data, ([2, 9, 1, 4] : List ℚ))] := by
  constructor
  · exact c2_grid_formula_and_row_lengths.1 stepTenParams zeroOracle
      (initState stepTenParams)
      ⟨.idx 0, .idx 1, some [10, 20, 30, 40], [("a".data, [5, 8, 3, 6])]⟩
      scenarioA4 "a".data (.idx 0) (.idx 1) [10, 20, 30, 40]
      (by with_unfolding_all rfl)
  · exact c2_grid_formula_and_row_lengths.2 stepTenParams zeroOracle
      [scenarioA4, scenarioB4]
      ⟨.idx 0, .idx 1, some [10, 20, 30, 40],
        [("a".data, [5, 8, 3, 6]), ("b".data, [2, 9, 1, 4])]⟩
      [.accepted "a".data (.idx 0) (.idx 1) [10, 20, 30, 40],
       .accepted "b".data (.idx 0) (.idx 1) [10, 20, 30, 40]]
      (by with_unfolding_all rfl)

/-- Claim C3, counterexample.  The claim says a file with duplicate or
unsorted x values is skipped with a diagnostic and the batch continues.  In
this concrete two-file batch the first file has unsorted x values and the
whole run aborts with the uncaught spline ValueError: the second, perfectly
valid file is never processed and no matrix is produced, so the failure is
not confined to the offending file. -/
theorem c3_counterexample :
    pipeline stepTenParams zeroOracle id [unsortedFile, scenarioA4] =
      .aborted (.splineNotSorted "u.txt".data) := by
  with_unfolding_all rfl

/-- Claim C3, amended: a file whose x values are not strictly increasing
(duplicated or unsorted) reaches make interp spline, whose ValueError is
raised outside every try block of the loop, so the error aborts the entire
batch run instead of skipping the file: the files after it are never
processed.  Only the column-count, float-conversion and length checks are
per-file skips. -/
theorem c3_unsorted_x_aborts_batch :
    ∀ (p : Params) (o : Oracle) (st0 st : CoreState)
      (pre post : List DataFile) (f : DataFile) (rs : List FileResult)
      (df : PDataFrame) (xs ys0 ysq : List ℚ),
      runFiles p o st0 pre = .ok (st, rs) →
      parseFrame f = .ok df → ¬ df.cols.length < 2 →
      astypeFloat df (resolveFirst st.col_x df.cols) = some xs →
      astypeFloat df (resolveSecond st.col_y df.cols) = some ys0 →
      xs ≠ [] →
      ¬ xs.length ≠ (applyScale p.scale ys0).length →
      allFinite (applyScale p.scale ys0) = some ysq →
      strictlyInc xs = false →
      runFiles p o st0 (pre ++ f :: post) =
        .error (.splineNotSorted f.name) := by
  intro p o st0 st pre post f rs df xs ys0 ysq hrun hdf hc hx hy hne hlen hfin hsi
  have hs : make_interp_spline f.name xs (applyScale p.scale ys0) =
      .error (.splineNotSorted f.name) := by
    unfold make_interp_spline
    rw [hfin]
    simp only []
    rw [hsi]
    simp
  exact runFiles_error_propagates hrun
    (processFile_spline_error hdf hc hx hy hne hlen hs)

/-- Claim C3, witness for the amended theorem: the unsorted file aborts a
batch in which it is followed by a valid file. -/
theorem c3_witness :
    runFiles stepTenParams zeroOracle (initState stepTenParams)
      ([] ++ unsortedFile :: [scenarioA4]) =
      .error (.splineNotSorted "u.txt".data) :=
  c3_unsorted_x_aborts_batch stepTenParams zeroOracle
    (initState stepTenParams) (initState stepTenParams) [] [scenarioA4]
    unsortedFile []
    ⟨[.idx 0, .idx 1],
      [["10".data, "5".data], ["30".data, "8".data], ["20".data, "3".data],
       ["40".data, "6".data]]⟩
    [10, 30, 20, 40] [5, 8, 3, 6] [5, 8, 3, 6]
    (by with_unfolding_all rfl) (by with_unfolding_all rfl) (by decide)
    (by with_unfolding_all rfl) (by with_unfolding_all rfl) (by decide)
    (by decide) (by with_unfolding_all rfl) (by with_unfolding_all rfl)

/-- Claim C5, counterexample.  The claim says that for any input series
containing a zero or negative value the transformed output contains no
infinite or undefined value, every such cell being repaired with the maximum
finite transformed value.  The series with values -1 and -2 consists of
negative values, yet both transformed entries are nonfinite, the pandas max
of the all-NaN series is itself NaN, and the fill leaves both cells NaN: the
output is entirely undefined. -/
theorem c5_counterexample :
    ((-1 : ℚ) < 0 ∧ (-2 : ℚ) < 0) ∧
      logRepair [-1, -2] = [TVal.nan, TVal.nan] :=
  ⟨by decide, by with_unfolding_all rfl⟩

/-- Claim C5, amended: in log mode each entry y is transformed to the natural
logarithm of 1 + y (a finite value represented here by its argument, see
TVal), and provided at least one entry exceeds -1 - so that the series has at
least one finite transformed value - every nonfinite cell is replaced by the
maximum finite transformed value of the same series, and the output contains
no infinite or undefined value.  A series whose entries all lie at or below
-1 has no finite transformed value and stays entirely NaN (see the
counterexample). -/
theorem c5_log_repair (ys : List ℚ) (hex : ∃ y ∈ ys, -1 < y) :
    ∃ m, m ∈ ys ∧ -1 < m ∧ (∀ y ∈ ys, -1 < y → y ≤ m) ∧
      logRepair ys =
        ys.map (fun y => if -1 < y then TVal.fin y else TVal.fin m) ∧
      ∀ v ∈ logRepair ys, v ≠ TVal.nan ∧ v ≠ TVal.neginf := by
  obtain ⟨m, h1, h2, h3, h4⟩ := logRepair_char hex
  refine ⟨m, h1, h2, h3, h4, ?_⟩
  intro v hv
  rw [h4] at hv
  simp only [List.mem_map] at hv
  obtain ⟨y, -, hy⟩ := hv
  by_cases h : -1 < y
  · rw [← hy, if_pos h]
    exact ⟨by simp, by simp⟩
  · rw [← hy, if_neg h]
    exact ⟨by simp, by simp⟩

/-- Claim C5, witness: the series 0, -1, -2 contains a zero and negative
values and one entry above -1; the repaired series is all finite. -/
theorem c5_witness :
    ∃ m, m ∈ ([0, -1, -2] : List ℚ) ∧ -1 < m ∧
      (∀ y ∈ ([0, -1, -2] : List ℚ), -1 < y → y ≤ m) ∧
      logRepair [0, -1, -2] =
        ([0, -1, -2] : List ℚ).map
          (fun y => if -1 < y then TVal.fin y else TVal.fin m) ∧
      ∀ v ∈ logRepair [0, -1, -2], v ≠ TVal.nan ∧ v ≠ TVal.neginf :=
  c5_log_repair [0, -1, -2] ⟨0, by decide, by decide⟩

/-- Claim C6, counterexample.  The claim says this exact two-file input
yields the grid 10, 20, 30 and a 2 by 3 matrix of the original y values.  In
fact each file has only three samples while the default cubic B-spline of
make interp spline needs at least four, so the very first file raises an
uncaught ValueError and the run aborts with no grid and no matrix at all. -/
theorem c6_counterexample :
    pipeline stepTenParams zeroOracle id [scenarioA3, scenarioB3] =
      .aborted (.splineTooFewPoints "a.txt".data) := by
  with_unfolding_all rfl

/-- Claim C6, amended: on the claimed three-sample files the pipeline aborts
in cubic-spline construction (see the counterexample); with a fourth sample
appended to each file (the lines 40 6 and 40 4) the pipeline succeeds with
the shared grid 10, 20, 30, 40 and a matrix of exactly two rows, each of
length four, whose values equal the original y values of the files.  Every
grid point coincides with a data site of the file, so the interpolation
property determines every stored value and the spline oracle is never
consulted. -/
theorem c6_concrete_scenario :
    pipeline stepTenParams zeroOracle id [scenarioA4, scenarioB4] =
      .success [("a".data, [5, 8, 3, 6]), ("b".data, [2, 9, 1, 4])]
        [10, 20, 30, 40]
        [.accepted "a".data (.idx 0) (.idx 1) [10, 20, 30, 40],
         .accepted "b".data (.idx 0) (.idx 1) [10, 20, 30, 40]] := by
  with_unfolding_all rfl

theorem resolveFirst_init (name : Chars) (cols : List ColKey) :
    resolveFirst (.str name) cols =
      if name = [] ∨ ColKey.str name ∉ cols then cols.getD 0 (.idx 0)
      else .str name := by
  simp only [resolveFirst, ColKey.str.injEq]

theorem resolveSecond_init (name : Chars) (cols : List ColKey) :
    resolveSecond (.str name) cols =
      if name = [] ∨ ColKey.str name ∉ cols then cols.getD 1 (.idx 0)
      else .str name := by
  simp only [resolveSecond, ColKey.str.injEq]

theorem filterMap_length_all_isSome {rs : List FileResult}
    (h : ∀ r ∈ rs, (acceptedLabel? r).isSome) :
    (rs.filterMap acceptedLabel?).length = rs.length := by
  induction rs with
  | nil => rfl
  | cons r t ih =>
    have hr := h r (List.mem_cons_self _ _)
    cases r with
    | skipped d => simp [acceptedLabel?] at hr
    | accepted lab cx cy grid =>
      have : acceptedLabel? (FileResult.accepted lab cx cy grid) = some lab := rfl
      rw [List.filterMap_cons, this]
      simp only [List.length_cons]
      rw [ih (fun r2 h2 => h r2 (List.mem_cons_of_mem _ h2))]

theorem filter_skipped_nil {rs : List FileResult}
    (h : ∀ r ∈ rs, (acceptedLabel? r).isSome) :
    rs.filter isSkippedB = [] := by
  induction rs with
  | nil => rfl
  | cons r t ih =>
    have hr := h r (List.mem_cons_self _ _)
    cases r with
    | skipped d => simp [acceptedLabel?] at hr
    | accepted lab cx cy grid =>
      rw [List.filter_cons]
      have : isSkippedB (FileResult.accepted lab cx cy grid) = false := rfl
      rw [this]
      simp only [Bool.false_eq_true, if_false]
      exact ih (fun r2 h2 => h r2 (List.mem_cons_of_mem _ h2))

/-- Claim C7, counterexample.  The claim says column resolution of one file
never depends on which files were processed before it: with an empty
requested name the first and second columns of that file are used.  Here
both requested names are empty.  The first file has header columns named
hash-a then b, so its x column resolves to hash-a and its y column to b, and
these resolved names are written back into the shared variables.  The second
file has the same names in the opposite order, hash-b then hash-a: fresh
resolution of the empty request would pick its first column hash-b as x, but
the run instead finds the carried-over name hash-a among its columns and
reads x from its second column (and y, since b is absent, also falls back to
hash-a): the recorded resolution of the second file depends on the first. -/
theorem c7_counterexample :
    (pipeline stepOneParams zeroOracle id [headerFile1, headerFile2] =
      .success [("f1".data, [10, 20, 30, 40]), ("f2".data, [51, 52, 53, 54])]
        [0, 10]
        [.accepted "f1".data (.str "#a".data) (.str "b".data) [1, 2, 3, 4],
         .accepted "f2".data (.str "#a".data) (.str "#a".data)
           [51, 52, 53, 54]] ∧
      (parseFrame headerFile2).toOption.map PDataFrame.cols =
        some [.str "#b".data, .str "#a".data]) ∧
      ColKey.str "#a".data ≠ ColKey.str "#b".data :=
  ⟨⟨by with_unfolding_all rfl, by with_unfolding_all rfl⟩, by decide⟩

/-- Claim C7, amended: the claimed resolution rule (requested name if present,
else the first or second column) holds for the first file of a run, because
the shared keys still hold the requested names; each resolution then
overwrites the shared keys with the resolved name, so a later file is
resolved against the previous resolved name rather than the original request
and may differ from the claimed rule (see the counterexample).  Resolution is
idempotent over a fixed column list, so the rule does hold for every file in
a batch whose files all share the same columns. -/
theorem c7_column_resolution :
    (∀ (p : Params) (o : Oracle) (f : DataFile) (df : PDataFrame)
       (st' : CoreState) (lab : Chars) (cx cy : ColKey) (grid : List ℚ),
       parseFrame f = .ok df →
       processFile p o (initState p) f = .ok (st', .accepted lab cx cy grid) →
       cx = (if p.col_x = [] ∨ ColKey.str p.col_x ∉ df.cols
             then df.cols.getD 0 (.idx 0) else .str p.col_x) ∧
       cy = (if p.col_y = [] ∨ ColKey.str p.col_y ∉ df.cols
             then df.cols.getD 1 (.idx 0) else .str p.col_y)) ∧
    (∀ (cur : ColKey) (cols : List ColKey),
       resolveFirst (resolveFirst cur cols) cols = resolveFirst cur cols ∧
       resolveSecond (resolveSecond cur cols) cols = resolveSecond cur cols) := by
  constructor
  · intro p o f df st' lab cx cy grid hdf h
    obtain ⟨df2, xs, ys0, ysq, hdf2, -, hcx, hcy, -, -, -, -, -, -, -, -, -⟩ :=
      processFile_accept_spec h
    rw [hdf] at hdf2
    have hdfeq : df = df2 := Except.ok.inj hdf2
    subst hdfeq
    constructor
    · rw [hcx]
      exact resolveFirst_init p.col_x df.cols
    · rw [hcy]
      exact resolveSecond_init p.col_y df.cols
  · intro cur cols
    exact ⟨resolveFirst_idem cur cols, resolveSecond_idem cur cols⟩

/-- Claim C7, witness for the amended theorem: the first header file resolved
from the initial state follows the claimed rule. -/
theorem c7_witness :
    ColKey.str "#a".data =
      (if stepOneParams.col_x = [] ∨
          ColKey.str stepOneParams.col_x ∉
            [ColKey.str "#a".data, ColKey.str "b".data]
       then [ColKey.str "#a".data, ColKey.str "b".data].getD 0 (.idx 0)
       else .str stepOneParams.col_x) ∧
    ColKey.str "b".data =
      (if stepOneParams.col_y = [] ∨
          ColKey.str stepOneParams.col_y ∉
            [ColKey.str "#a".data, ColKey.str "b".data]
       then [ColKey.str "#a".data, ColKey.str "b".data].getD 1 (.idx 0)
       else .str stepOneParams.col_y) :=
  c7_column_resolution.1 stepOneParams zeroOracle headerFile1
    ⟨[.str "#a".data, .str "b".data],
      [["1".data, "10".data], ["2".data, "20".data], ["3".data, "30".data],
       ["4".data, "40".data]]⟩
    ⟨.str "#a".data, .str "b".data, some [0, 10],
      [("f1".data, [10, 20, 30, 40])]⟩
    "f1".data (.str "#a".data) (.str "b".data) [1, 2, 3, 4]
    (by with_unfolding_all rfl) (by with_unfolding_all rfl)

/-- Claim C8: in a batch whose other files are all accepted under pairwise
distinct labels, a single file with fewer than two parsed columns is skipped
with exactly one diagnostic, the batch continues unchanged around it, and
the assembled matrix has exactly one labelled row per remaining file, that
is N minus 1 rows for N files. -/
theorem c8_skip_and_continue :
    ∀ (p : Params) (o : Oracle) (A B : List DataFile) (bad : DataFile)
      (dfb : PDataFrame) (st : CoreState) (res : List FileResult),
      parseFrame bad = .ok dfb → dfb.cols.length < 2 →
      runFiles p o (initState p) (A ++ B) = .ok (st, res) →
      (∀ r ∈ res, (acceptedLabel? r).isSome) →
      (res.filterMap acceptedLabel?).Nodup →
      ∃ resA resB, res = resA ++ resB ∧
        runFiles p o (initState p) (A ++ bad :: B) =
          .ok (st, resA ++ .skipped (.notEnoughColumns bad.name) :: resB) ∧
        st.matrix.length = res.length ∧ res.length = (A ++ B).length ∧
        ((resA ++ .skipped (.notEnoughColumns bad.name) :: resB).filter
            isSkippedB).length = 1 := by
  intro p o A B bad dfb st res hpb hcb hrun hacc hnodup
  have hrun0 := hrun
  rw [runFiles_append] at hrun
  cases hA : runFiles p o (initState p) A with
  | error e => rw [hA] at hrun; cases hrun
  | ok prA =>
    obtain ⟨stA, resA⟩ := prA
    rw [hA] at hrun
    simp only [] at hrun
    cases hB : runFiles p o stA B with
    | error e => rw [hB] at hrun; cases hrun
    | ok prB =>
      obtain ⟨stB, resB⟩ := prB
      rw [hB] at hrun
      cases hrun
      have haccA : ∀ r ∈ resA, (acceptedLabel? r).isSome :=
        fun r hr => hacc r (List.mem_append_left _ hr)
      have haccB : ∀ r ∈ resB, (acceptedLabel? r).isSome :=
        fun r hr => hacc r (List.mem_append_right _ hr)
      refine ⟨resA, resB, rfl, ?_, ?_, runFiles_length hrun0, ?_⟩
      · rw [runFiles_append, hA]
        simp only []
        rw [runFiles_cons, processFile_fewCols hpb hcb]
        simp only []
        rw [hB]
      · have hkeys := runFiles_keys_extend hrun0 hacc hnodup
          (fun l _ hmem => absurd hmem (List.not_mem_nil l))
        have h1 : st.matrix.length = (st.matrix.map Prod.fst).length :=
          (List.length_map _ _).symm
        rw [h1, hkeys]
        simp only [initState, List.map_nil, List.nil_append]
        exact filterMap_length_all_isSome hacc
      · rw [List.filter_append, List.filter_cons]
        have hskip : isSkippedB (.skipped (.notEnoughColumns bad.name)) =
          true := rfl
        rw [hskip]
        rw [filter_skipped_nil haccA, filter_skipped_nil haccB]
        simp

/-- Claim C8, witness: a three-file batch in which the middle file has a
single column; the other two are accepted and the matrix has two rows. -/
theorem c8_witness :
    ∃ resA resB,
      ([.accepted "a".data (.idx 0) (.idx 1) ([10, 20, 30, 40] : List ℚ),
        .accepted "b".data (.idx 0) (.idx 1) ([10, 20, 30, 40] : List ℚ)] :
          List FileResult) = resA ++ resB ∧
      runFiles stepTenParams zeroOracle (initState stepTenParams)
          ([scenarioA4] ++ oneColFile :: [scenarioB4]) =
        .ok (⟨.idx 0, .idx 1, some [10, 20, 30, 40],
          [("a".data, [5, 8, 3, 6]), ("b".data, [2, 9, 1, 4])]⟩,
          resA ++ .skipped (.notEnoughColumns "s.txt".data) :: resB) ∧
      ([("a".data, ([5, 8, 3, 6] : List ℚ)),
        ("b".data, ([2, 9, 1, 4] : List ℚ))] : HeatmapData).length =
        ([.accepted "a".data (.idx 0) (.idx 1) ([10, 20, 30, 40] : List ℚ),
          .accepted "b".data (.idx 0) (.idx 1) ([10, 20, 30, 40] : List ℚ)] :
            List FileResult).length ∧
      ([.accepted "a".data (.idx 0) (.idx 1) ([10, 20, 30, 40] : List ℚ),
        .accepted "b".data (.idx 0) (.idx 1) ([10, 20, 30, 40] : List ℚ)] :
          List FileResult).length = ([scenarioA4] ++ [scenarioB4]).length ∧
      ((resA ++ .skipped (.notEnoughColumns "s.txt".data) :: resB).filter
          isSkippedB).length = 1 :=
  c8_skip_and_continue stepTenParams zeroOracle [scenarioA4] [scenarioB4]
    oneColFile ⟨[.idx 0], [["5".data], ["6".data]]⟩
    ⟨.idx 0, .idx 1, some [10, 20, 30, 40],
      [("a".data, [5, 8, 3, 6]), ("b".data, [2, 9, 1, 4])]⟩
    [.accepted "a".data (.idx 0) (.idx 1) [10, 20, 30, 40],
     .accepted "b".data (.idx 0) (.idx 1) [10, 20, 30, 40]]
    (by with_unfolding_all rfl) (by decide) (by with_unfolding_all rfl)
    (by decide) (by decide)

/-- Claim C9: when a nonempty batch completes with every file skipped, the
accumulated matrix is empty and the pipeline reports the single terminal
empty-result error, delivering no matrix and no partial output. -/
theorem c9_empty_batch_fatal :
    ∀ (p : Params) (o : Oracle) (sp : HeatmapData → HeatmapData)
      (files : List DataFile) (st : CoreState) (res : List FileResult),
      files ≠ [] →
      runBatch p o files = .ok (st, res) →
      (∀ r ∈ res, isSkippedB r = true) →
      pipeline p o sp files = .emptyResult := by
  intro p o sp files st res hne hrun hsk
  have hm : st.matrix = [] := runFiles_all_skipped hrun hsk
  unfold pipeline
  rw [if_neg (fun h => hne (List.isEmpty_iff.mp h))]
  rw [show runBatch p o files = .ok (st, res) from hrun]
  simp only []
  rw [hm]
  rfl

/-- Claim C9, witness: two single-column files are both skipped and the
pipeline ends in the empty-result error. -/
theorem c9_witness :
    pipeline stepTenParams zeroOracle id [oneColFile, oneColFile2] =
      .emptyResult :=
  c9_empty_batch_fatal stepTenParams zeroOracle id [oneColFile, oneColFile2]
    (initState stepTenParams)
    [.skipped (.notEnoughColumns "s.txt".data),
     .skipped (.notEnoughColumns "t.txt".data)]
    (by decide) (by with_unfolding_all rfl) (by decide)

/-- Claim C10: once at least one file has been accepted (the matrix holds a
first column), a later file whose computed grid length differs from the
existing row length makes the pandas column assignment raise its uncaught
length error, aborting the entire batch rather than skipping the file; and
no completed run ever holds rows of differing lengths, so a file with a
different grid length is never silently admitted. -/
theorem c10_length_mismatch_aborts :
    (∀ (p : Params) (o : Oracle) (st0 st : CoreState)
       (pre post : List DataFile) (f : DataFile) (rs : List FileResult)
       (df : PDataFrame) (xs ys0 ysq : List ℚ) (v0 : Chars × List ℚ)
       (rest : HeatmapData),
       runFiles p o st0 pre = .ok (st, rs) →
       st.matrix = v0 :: rest →
       parseFrame f = .ok df → ¬ df.cols.length < 2 →
       astypeFloat df (resolveFirst st.col_x df.cols) = some xs →
       astypeFloat df (resolveSecond st.col_y df.cols) = some ys0 →
       xs ≠ [] →
       ¬ xs.length ≠ (applyScale p.scale ys0).length →
       make_interp_spline f.name xs (applyScale p.scale ys0) = .ok ysq →
       (gridOf p.x_step xs).length ≠ v0.2.length →
       runFiles p o st0 (pre ++ f :: post) =
         .error (.insertLengthMismatch (labelOf p f.name))) ∧
    (∀ (p : Params) (o : Oracle) (files : List DataFile) (st : CoreState)
       (res : List FileResult),
       runBatch p o files = .ok (st, res) → rowsSameLength st.matrix) := by
  constructor
  · intro p o st0 st pre post f rs df xs ys0 ysq v0 rest hrun hm hdf hc hx hy
      hne hlen hs hg
    exact runFiles_error_propagates hrun
      (processFile_insert_mismatch hm hdf hc hx hy hne hlen hs hg)
  · intro p o files st res h
    exact runFiles_sameLength h (fun c1 h1 => absurd h1 (List.not_mem_nil c1))

/-- Claim C10, witness: after the accepted four-sample file, the five-sample
file computes a five-point grid against the four-long matrix rows and the
batch aborts with the pandas length error. -/
theorem c10_witness :
    runFiles stepTenParams zeroOracle (initState stepTenParams)
      ([scenarioA4] ++ fivePointFile :: []) =
      .error (.insertLengthMismatch "d".data) :=
  c10_length_mismatch_aborts.1 stepTenParams zeroOracle
    (initState stepTenParams)
    ⟨.idx 0, .idx 1, some [10, 20, 30, 40], [("a".data, [5, 8, 3, 6])]⟩
    [scenarioA4] [] fivePointFile
    [.accepted "a".data (.idx 0) (.idx 1) [10, 20, 30, 40]]
    ⟨[.idx 0, .idx 1],
      [["10".data, "1".data], ["20".data, "2".data], ["30".data, "3".data],
       ["40".data, "4".data], ["50".data, "5".data]]⟩
    [10, 20, 30, 40, 50] [1, 2, 3, 4, 5] [1, 2, 3, 4, 5]
    ("a".data, [5, 8, 3, 6]) []
    (by with_unfolding_all rfl) rfl (by with_unfolding_all rfl) (by decide)
    (by with_unfolding_all rfl) (by with_unfolding_all rfl) (by decide)
    (by decide) (by with_unfolding_all rfl)
    (by
      have h : (gridOf stepTenParams.x_step [10, 20, 30, 40, 50]).length = 5 := by
        with_unfolding_all rfl
      rw [h]
      decide)

end DebyeScherrer
